/-
Verification of the MiniTel-Lite protocol core (src/minitel): frame codec
(base64 wire format with SHA-256 integrity digest), client nonce sequencer,
server command state machine, and client connection retry loop.

Bytes are modelled as `Nat` values (< 256 where relevant); machine words
are `Nat` with explicit reduction modulo 2^32. Python exceptions are
modelled with `Except`/`Option`; mutable state is passed explicitly, with
error paths returning the state as it stood when the exception was raised.
-/

import Mathlib

namespace MiniTel

/-! ### Byte packing (struct.pack equivalents) -/

/-- Python struct.pack(">I", n): 4 big-endian bytes of a 32-bit value. -/
def packU32 (n : Nat) : List Nat :=
  [n / 16777216 % 256, n / 65536 % 256, n / 256 % 256, n % 256]

/-- Python struct.pack(">H", n): 2 big-endian bytes of a 16-bit value. -/
def packU16 (n : Nat) : List Nat :=
  [n / 256 % 256, n % 256]

/-- Python struct.unpack(">I", b): read 4 big-endian bytes as an unsigned int. -/
def unpackU32 (b : List Nat) : Nat :=
  match b with
  | [b0, b1, b2, b3] => b0 * 16777216 + b1 * 65536 + b2 * 256 + b3
  | _ => 0

/-- Python struct.unpack(">H", b) on the first two bytes. -/
def unpackU16 (b0 b1 : Nat) : Nat := b0 * 256 + b1

theorem packU32_length (n : Nat) : (packU32 n).length = 4 := rfl

theorem packU32_lt (n : Nat) : ∀ b ∈ packU32 n, b < 256 := by
  intro b hb
  simp [packU32] at hb
  rcases hb with h | h | h | h <;> subst h <;> exact Nat.mod_lt _ (by norm_num)

theorem unpackU32_packU32 (n : Nat) (h : n < 4294967296) :
    unpackU32 (packU32 n) = n := by
  simp [packU32, unpackU32]
  omega

theorem unpackU16_packU16 (n : Nat) (h : n < 65536) :
    unpackU16 (n / 256 % 256) (n % 256) = n := by
  simp [unpackU16]
  omega

/-! ### Base64 (base64.b64encode / b64decode on byte lists)

Characters are represented by their ASCII codes. -/

/-- ASCII code of the i-th character of the standard base64 alphabet. -/
def b64chr (i : Nat) : Nat :=
  if i < 26 then 65 + i            -- A-Z
  else if i < 52 then 97 + (i - 26) -- a-z
  else if i < 62 then 48 + (i - 52) -- 0-9
  else if i = 62 then 43            -- +
  else 47                           -- /

/-- Inverse of the base64 alphabet: ASCII code back to 6-bit index. -/
def b64idx (c : Nat) : Option Nat :=
  if 65 ≤ c ∧ c ≤ 90 then some (c - 65)
  else if 97 ≤ c ∧ c ≤ 122 then some (c - 97 + 26)
  else if 48 ≤ c ∧ c ≤ 57 then some (c - 48 + 52)
  else if c = 43 then some 62
  else if c = 47 then some 63
  else none

/-- ASCII code of the padding character `=`. -/
def b64pad : Nat := 61

/-- Python base64.b64encode: bytes to base64 text (as ASCII codes), with padding. -/
def b64encode : List Nat → List Nat
  | [] => []
  | [a] =>
      let n := a * 65536
      [b64chr (n / 262144), b64chr (n / 4096 % 64), b64pad, b64pad]
  | [a, b] =>
      let n := a * 65536 + b * 256
      [b64chr (n / 262144), b64chr (n / 4096 % 64), b64chr (n / 64 % 64), b64pad]
  | a :: b :: c :: rest =>
      let n := a * 65536 + b * 256 + c
      b64chr (n / 262144) :: b64chr (n / 4096 % 64) :: b64chr (n / 64 % 64) ::
        b64chr (n % 64) :: b64encode rest

/-- Python base64.b64decode: base64 text (ASCII codes) back to bytes; errors on
malformed input. -/
def b64decode : List Nat → Except String (List Nat)
  | [] => .ok []
  | c0 :: c1 :: c2 :: c3 :: rest =>
      match b64idx c0, b64idx c1 with
      | some i0, some i1 =>
          if c2 = b64pad ∧ c3 = b64pad then
            if rest = [] then .ok [i0 * 4 + i1 / 16]
            else .error "Invalid base64 padding"
          else if c3 = b64pad then
            match b64idx c2 with
            | some i2 =>
                if rest = [] then .ok [i0 * 4 + i1 / 16, i1 % 16 * 16 + i2 / 4]
                else .error "Invalid base64 padding"
            | none => .error "Invalid base64 character"
          else
            match b64idx c2, b64idx c3 with
            | some i2, some i3 =>
                match b64decode rest with
                | .ok tail =>
                    .ok ((i0 * 4 + i1 / 16) :: (i1 % 16 * 16 + i2 / 4) ::
                         (i2 % 4 * 64 + i3) :: tail)
                | .error e => .error e
            | _, _ => .error "Invalid base64 character"
      | _, _ => .error "Invalid base64 character"
  | _ => .error "Invalid base64 length"

theorem b64idx_b64chr (i : Nat) (h : i < 64) : b64idx (b64chr i) = some i := by
  interval_cases i <;> rfl

theorem b64chr_ne_pad (i : Nat) (h : i < 64) : b64chr i ≠ b64pad := by
  interval_cases i <;> simp [b64chr, b64pad]

theorem b64chr_lt (i : Nat) : b64chr i < 128 := by
  unfold b64chr
  split <;> [omega; skip]
  split <;> [omega; skip]
  split <;> [omega; skip]
  split <;> omega

theorem b64encode_length : ∀ l : List Nat, (b64encode l).length = (l.length + 2) / 3 * 4
  | [] => rfl
  | [_] => by simp [b64encode]
  | [_, _] => by simp [b64encode]
  | a :: b :: c :: rest => by
      simp [b64encode, b64encode_length rest]
      omega

/-- Base64 round-trip on byte lists. -/
theorem b64decode_b64encode :
    ∀ l : List Nat, (∀ b ∈ l, b < 256) → b64decode (b64encode l) = .ok l
  | [], _ => by simp [b64encode, b64decode]
  | [a], h => by
      have ha : a < 256 := h a (by simp)
      have h0 : a * 65536 / 262144 < 64 := by omega
      have h1 : a * 65536 / 4096 % 64 < 64 := Nat.mod_lt _ (by norm_num)
      simp only [b64encode, b64decode, b64idx_b64chr _ h0, b64idx_b64chr _ h1,
        and_self, if_true, Except.ok.injEq, List.cons.injEq, and_true]
      omega
  | [a, b], h => by
      have ha : a < 256 := h a (by simp)
      have hb : b < 256 := h b (by simp)
      have h0 : (a * 65536 + b * 256) / 262144 < 64 := by omega
      have h1 : (a * 65536 + b * 256) / 4096 % 64 < 64 := Nat.mod_lt _ (by norm_num)
      have h2 : (a * 65536 + b * 256) / 64 % 64 < 64 := Nat.mod_lt _ (by norm_num)
      simp only [b64encode, b64decode, b64idx_b64chr _ h0, b64idx_b64chr _ h1,
        b64idx_b64chr _ h2, b64chr_ne_pad _ h2, false_and, if_false, if_true,
        Except.ok.injEq, List.cons.injEq, and_true]
      constructor
      · omega
      · omega
  | a :: b :: c :: rest, h => by
      have ha : a < 256 := h a (by simp)
      have hb : b < 256 := h b (by simp)
      have hc : c < 256 := h c (by simp)
      have hrest : ∀ x ∈ rest, x < 256 := fun x hx => h x (by simp [hx])
      have h0 : (a * 65536 + b * 256 + c) / 262144 < 64 := by omega
      have h1 : (a * 65536 + b * 256 + c) / 4096 % 64 < 64 := Nat.mod_lt _ (by norm_num)
      have h2 : (a * 65536 + b * 256 + c) / 64 % 64 < 64 := Nat.mod_lt _ (by norm_num)
      have h3 : (a * 65536 + b * 256 + c) % 64 < 64 := Nat.mod_lt _ (by norm_num)
      simp only [b64encode, b64decode, b64idx_b64chr _ h0, b64idx_b64chr _ h1,
        b64idx_b64chr _ h2, b64idx_b64chr _ h3, b64chr_ne_pad _ h2, b64chr_ne_pad _ h3,
        b64decode_b64encode rest hrest, false_and, if_false, and_false,
        Except.ok.injEq, List.cons.injEq, and_true]
      omega

/-! ### SHA-256 (hashlib.sha256(...).digest())

Words are `Nat` reduced modulo 2^32; all recursion is structural so the
kernel can evaluate digests on concrete inputs. -/

/-- Truncate to a 32-bit word. -/
def w32 (n : Nat) : Nat := n % 4294967296

/-- 32-bit right rotation (argument assumed < 2^32). -/
def rotr (n x : Nat) : Nat := w32 (x >>> n ||| x <<< (32 - n))

def ch (x y z : Nat) : Nat := x &&& y ^^^ (x ^^^ 4294967295) &&& z

def maj (x y z : Nat) : Nat := x &&& y ^^^ x &&& z ^^^ y &&& z

def bigSigma0 (x : Nat) : Nat := rotr 2 x ^^^ rotr 13 x ^^^ rotr 22 x

def bigSigma1 (x : Nat) : Nat := rotr 6 x ^^^ rotr 11 x ^^^ rotr 25 x

def smallSigma0 (x : Nat) : Nat := rotr 7 x ^^^ rotr 18 x ^^^ x >>> 3

def smallSigma1 (x : Nat) : Nat := rotr 17 x ^^^ rotr 19 x ^^^ x >>> 10

/-- The 64 SHA-256 round constants (decimal). -/
def shaK : List Nat :=
  [1116352408, 1899447441, 3049323471, 3921009573, 961987163,
   1508970993, 2453635748, 2870763221, 3624381080, 310598401,
   607225278, 1426881987, 1925078388, 2162078206, 2614888103,
   3248222580, 3835390401, 4022224774, 264347078, 604807628,
   770255983, 1249150122, 1555081692, 1996064986, 2554220882,
   2821834349, 2952996808, 3210313671, 3336571891, 3584528711,
   113926993, 338241895, 666307205, 773529912, 1294757372,
   1396182291, 1695183700, 1986661051, 2177026350, 2456956037,
   2730485921, 2820302411, 3259730800, 3345764771, 3516065817,
   3600352804, 4094571909, 275423344, 430227734, 506948616,
   659060556, 883997877, 958139571, 1322822218, 1537002063,
   1747873779, 1955562222, 2024104815, 2227730452, 2361852424,
   2428436474, 2756734187, 3204031479, 3329325298]

/-- SHA-256 working state: eight 32-bit words. -/
structure Sha256State where
  a : Nat
  b : Nat
  c : Nat
  d : Nat
  e : Nat
  f : Nat
  g : Nat
  h : Nat
  deriving DecidableEq

/-- Initial SHA-256 hash value (decimal). -/
def shaInit : Sha256State :=
  { a := 1779033703, b := 3144134277, c := 1013904242, d := 2773480762,
    e := 1359893119, f := 2600822924, g := 528734635, h := 1541459225 }

/-- Extend the message schedule: `win` is the sliding window of the 16 most
recent words (oldest first); produce the next `fuel` words. -/
def extendW : Nat → List Nat → List Nat
  | 0, _ => []
  | fuel + 1, win =>
      let next := w32 (smallSigma1 (win.getD 14 0) + win.getD 9 0 +
                       smallSigma0 (win.getD 1 0) + win.getD 0 0)
      next :: extendW fuel (win.drop 1 ++ [next])

/-- One SHA-256 compression round. -/
def shaRound (s : Sha256State) (kw : Nat × Nat) : Sha256State :=
  let t1 := w32 (s.h + bigSigma1 s.e + ch s.e s.f s.g + kw.1 + kw.2)
  let t2 := w32 (bigSigma0 s.a + maj s.a s.b s.c)
  { a := w32 (t1 + t2), b := s.a, c := s.b, d := s.c,
    e := w32 (s.d + t1), f := s.e, g := s.f, h := s.g }

/-- Compress one 16-word block into the hash state. -/
def compressBlock (s : Sha256State) (words : List Nat) : Sha256State :=
  let schedule := words ++ extendW 48 words
  let t := (shaK.zip schedule).foldl shaRound s
  { a := w32 (s.a + t.a), b := w32 (s.b + t.b), c := w32 (s.c + t.c),
    d := w32 (s.d + t.d), e := w32 (s.e + t.e), f := w32 (s.f + t.f),
    g := w32 (s.g + t.g), h := w32 (s.h + t.h) }

/-- Eight big-endian bytes of a 64-bit value (the padded bit-length field). -/
def packU64 (n : Nat) : List Nat :=
  [n / 72057594037927936 % 256, n / 281474976710656 % 256,
   n / 1099511627776 % 256, n / 4294967296 % 256,
   n / 16777216 % 256, n / 65536 % 256, n / 256 % 256, n % 256]

/-- SHA-256 padding: append 0x80, zeros to 56 mod 64, then the bit length. -/
def sha256Pad (msg : List Nat) : List Nat :=
  let L := msg.length
  let k := (64 + 56 - (L + 1) % 64) % 64
  msg ++ 128 :: List.replicate k 0 ++ packU64 (L * 8)

/-- Group bytes into big-endian 32-bit words. -/
def bytesToWords : List Nat → List Nat
  | b0 :: b1 :: b2 :: b3 :: rest =>
      (b0 * 16777216 + b1 * 65536 + b2 * 256 + b3) :: bytesToWords rest
  | _ => []

/-- Fold `fuel` 64-byte blocks of `bytes` into the hash state. -/
def sha256Blocks : Nat → Sha256State → List Nat → Sha256State
  | 0, s, _ => s
  | fuel + 1, s, bytes =>
      sha256Blocks fuel (compressBlock s (bytesToWords (bytes.take 64))) (bytes.drop 64)

/-- Python hashlib.sha256(msg).digest(): the 32-byte SHA-256 digest. -/
def sha256 (msg : List Nat) : List Nat :=
  let padded := sha256Pad msg
  let final := sha256Blocks (padded.length / 64) shaInit padded
  packU32 final.a ++ packU32 final.b ++ packU32 final.c ++ packU32 final.d ++
  packU32 final.e ++ packU32 final.f ++ packU32 final.g ++ packU32 final.h

theorem sha256_length (m : List Nat) : (sha256 m).length = 32 := by
  simp [sha256, packU32]

theorem sha256_lt (m : List Nat) : ∀ b ∈ sha256 m, b < 256 := by
  intro b hb
  simp only [sha256, List.mem_append] at hb
  rcases hb with ((((((h | h) | h) | h) | h) | h) | h) | h <;> exact packU32_lt _ _ h

/-! ### Frame codec (src/minitel/protocol.py, class Frame) -/

/-- Command opcodes (class Command). -/
def HELLO : Nat := 0x01
def DUMP : Nat := 0x02
def STOP_CMD : Nat := 0x04
def HELLO_ACK : Nat := 0x81
def DUMP_FAILED : Nat := 0x82
def DUMP_OK : Nat := 0x83
def STOP_OK : Nat := 0x84

/-- A protocol frame. The Python class also stores `self.hash`, which is
always derived from the other three fields (`_calculate_hash`), so it is
modelled as the function `Frame.calcHash` instead of a field. -/
@[ext]
structure Frame where
  cmd : Nat
  nonce : Nat
  payload : List Nat
  deriving DecidableEq

/-- Model of Frame._calculate_hash: SHA-256 of CMD (1 byte) + NONCE (4 bytes BE) +
PAYLOAD. -/
def Frame.calcHash (f : Frame) : List Nat :=
  sha256 (f.cmd :: (packU32 f.nonce ++ f.payload))

/-- The binary blob `command ∥ nonce ∥ payload ∥ digest` built by
`Frame.encode` before base64. -/
def Frame.binary (f : Frame) : List Nat :=
  f.cmd :: (packU32 f.nonce ++ (f.payload ++ f.calcHash))

/-- Model of Frame.encode: wire format `LEN (2 bytes BE) ∥ base64(binary)`;
raises `ProtocolError` (modelled as `.error`) if the base64 text exceeds
65535 bytes. -/
def Frame.encode (f : Frame) : Except String (List Nat) :=
  let b64 := b64encode f.binary
  if b64.length > 65535 then .error "Frame too large"
  else .ok (packU16 b64.length ++ b64)

/-- Model of Frame.decode: parse the wire format back into a frame, re-deriving
and checking the integrity digest. -/
def Frame.decode (data : List Nat) : Except String Frame :=
  if data.length < 2 then .error "Frame too short for length prefix"
  else
    let length := unpackU16 (data.getD 0 0) (data.getD 1 0)
    if data.length < 2 + length then .error "Incomplete frame"
    else
      match b64decode ((data.drop 2).take length) with
      | .error _ => .error "Base64 decode error"
      | .ok binary =>
          if binary.length < 37 then .error "Binary frame too short"
          else
            let cmd := binary.getD 0 0
            let nonce := unpackU32 ((binary.drop 1).take 4)
            let payload := (binary.drop 5).take (binary.length - 37)
            let received := binary.drop (binary.length - 32)
            let frame : Frame := ⟨cmd, nonce, payload⟩
            if frame.calcHash ≠ received then .error "Hash validation failed"
            else .ok frame

/-- A frame is wire-valid when its fields fit the formats `struct.pack`
demands: one command byte, a 32-bit nonce, payload made of bytes. -/
def Frame.wf (f : Frame) : Prop :=
  f.cmd < 256 ∧ f.nonce < 4294967296 ∧ ∀ b ∈ f.payload, b < 256

instance (f : Frame) : Decidable f.wf := by
  unfold Frame.wf
  infer_instance

theorem Frame.calcHash_length (f : Frame) : f.calcHash.length = 32 :=
  sha256_length _

theorem Frame.binary_lt (f : Frame) (h : f.wf) : ∀ b ∈ f.binary, b < 256 := by
  obtain ⟨hc, hn, hp⟩ := h
  intro b hb
  simp only [Frame.binary, List.mem_cons, List.mem_append] at hb
  rcases hb with h | h | h | h
  · omega
  · exact packU32_lt _ _ h
  · exact hp _ h
  · exact sha256_lt _ _ h

theorem Frame.binary_length (f : Frame) :
    f.binary.length = 37 + f.payload.length := by
  simp [Frame.binary, Frame.calcHash, packU32, sha256_length]
  omega

/-- The frame parsed out of a binary blob of at least 37 bytes. -/
def parseBinary (bin : List Nat) : Frame :=
  ⟨bin.getD 0 0, unpackU32 ((bin.drop 1).take 4), (bin.drop 5).take (bin.length - 37)⟩

/-- Decoding a well-formed wire image (2-byte length plus base64 text of a
byte blob of at least 37 bytes) reaches the digest comparison: it returns
the parsed frame when the re-derived digest matches the trailing 32 bytes,
and the hash-validation error otherwise. -/
theorem Frame.decode_wire (bin : List Nat) (hbytes : ∀ b ∈ bin, b < 256)
    (hlen : 37 ≤ bin.length) (hb64 : (b64encode bin).length ≤ 65535) :
    Frame.decode (packU16 (b64encode bin).length ++ b64encode bin) =
      if (parseBinary bin).calcHash ≠ bin.drop (bin.length - 32)
      then .error "Hash validation failed"
      else .ok (parseBinary bin) := by
  have hL : (b64encode bin).length < 65536 := by omega
  have hdata : packU16 (b64encode bin).length ++ b64encode bin =
      (b64encode bin).length / 256 % 256 :: (b64encode bin).length % 256 ::
        b64encode bin := rfl
  rw [Frame.decode, hdata]
  simp only [List.length_cons, List.getD_cons_zero, List.getD_cons_succ,
    List.drop_succ_cons, List.drop_zero, unpackU16_packU16 _ hL,
    List.take_length, b64decode_b64encode bin hbytes]
  rw [if_neg (by omega), if_neg (by omega), if_neg (by omega)]
  rfl

/-- The trailing 32 bytes of the encoded binary blob are exactly the
derived digest of the frame. -/
theorem Frame.calcHash_eq_trailing (f : Frame) :
    f.calcHash = f.binary.drop (f.binary.length - 32) := by
  rw [f.binary_length]
  rw [show (37 + f.payload.length - 32) = 5 + f.payload.length by omega]
  simp only [Frame.binary]
  rw [show (5 + f.payload.length) = (4 + f.payload.length) + 1 by omega]
  rw [List.drop_succ_cons]
  rw [show (4 + f.payload.length) = (packU32 f.nonce).length + f.payload.length
    by simp [packU32]]
  rw [List.drop_append]
  rw [show f.payload.length = f.payload.length + 0 by omega, List.drop_append]
  simp

/-- Round trip: decoding the wire bytes produced by `encode` on a
wire-valid frame succeeds and returns the same frame. -/
theorem Frame.decode_encode (f : Frame) (h : f.wf) (out : List Nat)
    (he : f.encode = .ok out) : Frame.decode out = .ok f := by
  rw [Frame.encode] at he
  split at he
  · exact absurd he (by simp)
  · rename_i hsz
    have hout : out = packU16 (b64encode f.binary).length ++ b64encode f.binary := by
      simpa using he.symm
    subst hout
    rw [Frame.decode_wire f.binary (f.binary_lt h) (by rw [f.binary_length]; omega)
      (by omega)]
    have hparse : parseBinary f.binary = f := by
      obtain ⟨hc, hn, hp⟩ := h
      show Frame.mk _ _ _ = f
      rw [Frame.ext_iff]
      refine ⟨?_, ?_, ?_⟩
      · simp [parseBinary, Frame.binary]
      · simp only [parseBinary, Frame.binary, List.drop_succ_cons, List.drop_zero]
        rw [← packU32_length f.nonce, List.take_left, unpackU32_packU32 _ hn]
      · simp only [parseBinary, Frame.binary, List.drop_succ_cons, List.drop_zero]
        rw [show (f.cmd :: (packU32 f.nonce ++ (f.payload ++ f.calcHash))).length - 37
              = f.payload.length by
            simp only [List.length_cons, List.length_append, packU32_length,
              Frame.calcHash_length]
            omega]
        rw [show ((packU32 f.nonce ++ (f.payload ++ f.calcHash)).drop 4) =
          f.payload ++ f.calcHash by rw [← packU32_length f.nonce, List.drop_left]]
        rw [List.take_append_of_le_length le_rfl]
        exact List.take_length _
    rw [hparse]
    rw [if_neg (by rw [← f.calcHash_eq_trailing]; simp)]

/-! #### Digest tampering -/

/-- Flip bit `i` of the byte at index `j` of a byte list. -/
def flipBit (l : List Nat) (j i : Nat) : List Nat :=
  l.set j (l.getD j 0 ^^^ 2 ^ i)

/-- The blob `f.binary` with bit `i` of digest byte `j` flipped: only the trailing
32-byte digest region is altered. -/
def Frame.tamperedBinary (f : Frame) (j i : Nat) : List Nat :=
  f.cmd :: (packU32 f.nonce ++ (f.payload ++ flipBit f.calcHash j i))

/-- The wire image of the tampered blob: the length prefix is unchanged
(the blob keeps its length) followed by the base64 of the tampered blob. -/
def Frame.tamperedWire (f : Frame) (j i : Nat) : List Nat :=
  packU16 (b64encode (f.tamperedBinary j i)).length ++
    b64encode (f.tamperedBinary j i)

theorem flipBit_length (l : List Nat) (j i : Nat) :
    (flipBit l j i).length = l.length := by
  simp [flipBit]

theorem flipBit_ne (l : List Nat) (j i : Nat) (hj : j < l.length) :
    flipBit l j i ≠ l := by
  intro heq
  have h1 : (flipBit l j i)[j]? = some (l.getD j 0 ^^^ 2 ^ i) :=
    List.getElem?_set_self (by simpa [flipBit] using hj)
  rw [heq, List.getElem?_eq_getElem hj] at h1
  have h3 : l[j] = l[j] ^^^ 2 ^ i := by
    have h1' := Option.some.inj h1
    rwa [List.getD_eq_getElem _ _ hj] at h1'
  have h4 : (0 : Nat) = 2 ^ i := by
    have h5 := congrArg (fun x => l[j] ^^^ x) h3
    simpa [← Nat.xor_assoc, Nat.xor_self, Nat.zero_xor] using h5
  exact absurd h4.symm (by positivity)

theorem flipBit_lt (l : List Nat) (j i : Nat) (hi : i < 8)
    (hl : ∀ b ∈ l, b < 256) : ∀ b ∈ flipBit l j i, b < 256 := by
  intro b hb
  rcases List.mem_or_eq_of_mem_set hb with h | h
  · exact hl b h
  · subst h
    have hx : l.getD j 0 < 256 := by
      rcases Nat.lt_or_ge j l.length with hj | hj
      · rw [List.getD_eq_getElem _ _ hj]
        exact hl _ (l.getElem_mem hj)
      · rw [List.getD_eq_default _ _ hj]
        norm_num
    have hp : (2 : Nat) ^ i < 256 := by
      calc (2 : Nat) ^ i ≤ 2 ^ 7 := Nat.pow_le_pow_right (by norm_num) (by omega)
      _ < 256 := by norm_num
    exact Nat.xor_lt_two_pow (n := 8) hx hp

/-- Parsing a binary blob of the exact encode shape recovers the three
fields and the trailing 32 bytes. -/
theorem parseBinary_shape (c n : Nat) (p H : List Nat) (hn : n < 4294967296)
    (hH : H.length = 32) :
    parseBinary (c :: (packU32 n ++ (p ++ H))) = ⟨c, n, p⟩ ∧
      (c :: (packU32 n ++ (p ++ H))).drop
        ((c :: (packU32 n ++ (p ++ H))).length - 32) = H := by
  have hlen : (c :: (packU32 n ++ (p ++ H))).length = 37 + p.length := by
    simp [packU32, hH]
    omega
  constructor
  · rw [Frame.ext_iff]
    refine ⟨?_, ?_, ?_⟩
    · simp [parseBinary]
    · simp only [parseBinary, List.drop_succ_cons, List.drop_zero]
      rw [← packU32_length n, List.take_left, unpackU32_packU32 _ hn]
    · simp only [parseBinary, List.drop_succ_cons, List.drop_zero, hlen]
      rw [show 37 + p.length - 37 = p.length by omega]
      rw [show ((packU32 n ++ (p ++ H)).drop 4) = p ++ H by
        rw [← packU32_length n, List.drop_left]]
      rw [List.take_append_of_le_length le_rfl]
      exact List.take_length _
  · rw [hlen]
    rw [show (37 + p.length - 32) = (4 + p.length) + 1 by omega]
    rw [List.drop_succ_cons]
    rw [show (4 + p.length) = (packU32 n).length + p.length by simp [packU32]]
    rw [List.drop_append]
    rw [show p.length = p.length + 0 by omega, List.drop_append]
    simp

/-! ### Client nonce sequencer (src/minitel/protocol.py, class MiniTelProtocol) -/

/-- Model of class MiniTelProtocol: the client-side handler, whose only mutable state is
the nonce counter (starts at 0). -/
structure MiniTelProtocol where
  nonce : Nat
  deriving DecidableEq

/-- The MiniTelProtocol() constructor. -/
def MiniTelProtocol.init : MiniTelProtocol := ⟨0⟩

/-- Model of create_hello_frame: a HELLO frame at the current nonce; `self` is not
mutated. -/
def MiniTelProtocol.create_hello_frame (p : MiniTelProtocol) : Frame :=
  ⟨HELLO, p.nonce, []⟩

/-- Model of create_dump_frame: a DUMP frame at the current nonce. -/
def MiniTelProtocol.create_dump_frame (p : MiniTelProtocol) : Frame :=
  ⟨DUMP, p.nonce, []⟩

/-- Model of create_stop_frame: a STOP_CMD frame at the current nonce. -/
def MiniTelProtocol.create_stop_frame (p : MiniTelProtocol) : Frame :=
  ⟨STOP_CMD, p.nonce, []⟩

/-- Model of update_nonce: the state after the call paired with the raised
`ProtocolError` if any. The counter is only assigned after the mismatch
check, so on error the state is the one at raise time. -/
def MiniTelProtocol.update_nonce (p : MiniTelProtocol) (received_nonce : Nat) :
    MiniTelProtocol × Option String :=
  let expected_nonce := p.nonce + 1
  if received_nonce ≠ expected_nonce then (p, some "Nonce mismatch")
  else ({ nonce := received_nonce + 1 }, none)

/-- Model of validate_response: raises unless the response carries the expected
command. -/
def MiniTelProtocol.validate_response (frame : Frame) (expected_cmd : Nat) :
    Option String :=
  if frame.cmd ≠ expected_cmd then some "Unexpected command" else none

/-! ### Server (src/minitel/server.py) -/

/-- Model of class ConnectionState: per-connection mutable protocol state. The wall-clock
fields `connected_at` / `last_activity` drive only the 2-second idle
timeout, which is real-time behavior outside this embedding, and are
omitted. -/
structure ConnectionState where
  expected_client_nonce : Nat
  server_nonce : Nat
  last_command : Option Nat
  dump_count : Nat
  deriving DecidableEq

/-- The ConnectionState() constructor: first client message should have
nonce 0, server starts responses with nonce 1. -/
def ConnectionState.init : ConnectionState :=
  { expected_client_nonce := 0, server_nonce := 1, last_command := none,
    dump_count := 0 }

/-- The configured server secret, MiniTelServer.secret, as bytes. -/
def serverSecret : List Nat :=
  [70, 76, 65, 71, 123, 77, 73, 78, 73, 84, 69, 76, 95, 77, 65, 83, 84,
   69, 82, 95, 50, 48, 50, 53, 125]

/-- Model of MiniTelServer._process_command: the state after the call (mutations
happen in program order, so an error leaves the state as it stood at raise
time) paired with either the response frame or the raised `ProtocolError`.
All error paths raise before any field is assigned. -/
def processCommand (secret : List Nat) (state : ConnectionState) (frame : Frame) :
    ConnectionState × Except String Frame :=
  if frame.nonce ≠ state.expected_client_nonce then
    (state, .error "Invalid nonce sequence")
  else if frame.cmd = HELLO then
    let state := { state with last_command := some HELLO, dump_count := 0 }
    let response : Frame := ⟨HELLO_ACK, state.server_nonce, []⟩
    let state := { state with
      expected_client_nonce := state.expected_client_nonce + 2,
      server_nonce := state.server_nonce + 2 }
    (state, .ok response)
  else if frame.cmd = DUMP then
    if state.last_command ≠ some HELLO then
      (state, .error "DUMP requires HELLO first")
    else
      let state := { state with dump_count := state.dump_count + 1 }
      let response : Frame :=
        if state.dump_count = 1 then ⟨DUMP_FAILED, state.server_nonce, []⟩
        else ⟨DUMP_OK, state.server_nonce, secret⟩
      let state := { state with
        expected_client_nonce := state.expected_client_nonce + 2,
        server_nonce := state.server_nonce + 2 }
      (state, .ok response)
  else if frame.cmd = STOP_CMD then
    let response : Frame := ⟨STOP_OK, state.server_nonce, []⟩
    let state := { state with
      expected_client_nonce := state.expected_client_nonce + 2,
      server_nonce := state.server_nonce + 2 }
    (state, .ok response)
  else
    (state, .error "Unknown command")

/-- The frame-handling step of `MiniTelServer._handle_client`: on a
`ProtocolError` from `_process_command` the loop breaks (connection torn
down, no response sent); otherwise the response is sent and the loop
continues. Returns (state, response sent, connection still alive). -/
def handleFrame (secret : List Nat) (state : ConnectionState) (frame : Frame) :
    ConnectionState × Option Frame × Bool :=
  match processCommand secret state frame with
  | (state', .ok response) => (state', some response, true)
  | (state', .error _) => (state', none, false)

/-! ### Client connect retry (src/minitel/enhanced_client.py,
EnhancedMiniTelClient.connect)

`outcome k` abstracts the transport: whether the k-th (0-based) socket
connect attempt succeeds. The returned list records the backoff delays
passed to `time.sleep`, in order. The loop runs at most `max_retries`
iterations, so it is phrased with a fuel argument that `connect` sets to
`max_retries`; the fuel never runs out before the loop guard exits. -/

def connectLoop (outcome : Nat → Bool) (max_retries : Nat) :
    Nat → Nat → Bool × List Nat
  | _, 0 => (false, [])
  | attempts, fuel + 1 =>
      if attempts < max_retries then
        if outcome attempts then (true, [])
        else
          let attempts' := attempts + 1
          if attempts' < max_retries then
            let rest := connectLoop outcome max_retries attempts' fuel
            (rest.1, 2 ^ attempts' :: rest.2)
          else (false, [])
      else (false, [])

/-- Model of EnhancedMiniTelClient.connect: returns whether the connect succeeded
together with the exponential-backoff sleeps performed. -/
def connect (outcome : Nat → Bool) (max_retries : Nat) : Bool × List Nat :=
  connectLoop outcome max_retries 0 max_retries

/-- The backoff delays slept after `n` consecutive failures, the first of
which was failure number `a + 1`: `2^(a+1), 2^(a+2), …, 2^(a+n)`. -/
def backoffWaits (a : Nat) : Nat → List Nat
  | 0 => []
  | n + 1 => 2 ^ (a + 1) :: backoffWaits (a + 1) n

theorem backoffWaits_eq_map (a : Nat) :
    ∀ n, backoffWaits a n = (List.range n).map (fun i => 2 ^ (a + i + 1)) := by
  intro n
  induction n generalizing a with
  | zero => rfl
  | succ n ih =>
      rw [backoffWaits, List.range_succ_eq_map, List.map_cons, List.map_map, ih]
      refine congrArg₂ _ (by norm_num) ?_
      refine List.map_congr_left fun i _ => ?_
      simp [Function.comp]
      ring_nf

theorem connectLoop_success (outcome : Nat → Bool) (max_retries : Nat)
    (k : Nat) (hk : k < max_retries) (hsucc : outcome k = true)
    (hfail : ∀ j < k, outcome j = false) :
    ∀ fuel attempts, attempts ≤ k → max_retries - attempts ≤ fuel →
      connectLoop outcome max_retries attempts fuel =
        (true, backoffWaits attempts (k - attempts))
  | fuel + 1, attempts, hak, hfuel => by
      rw [connectLoop]
      rw [if_pos (by omega)]
      rcases Nat.lt_or_ge attempts k with hlt | hge
      · rw [hfail attempts hlt]
        simp only [Bool.false_eq_true, if_false]
        rw [if_pos (by omega)]
        rw [connectLoop_success outcome max_retries k hk hsucc hfail fuel
          (attempts + 1) (by omega) (by omega)]
        rw [show k - attempts = (k - (attempts + 1)) + 1 by omega, backoffWaits]
      · have : attempts = k := by omega
        subst this
        rw [hsucc]
        simp [Nat.sub_self, backoffWaits]
  | 0, _, _, _ => by omega

theorem connectLoop_all_fail (outcome : Nat → Bool) (max_retries : Nat)
    (hfail : ∀ j < max_retries, outcome j = false) :
    ∀ fuel attempts, attempts < max_retries → max_retries - attempts ≤ fuel →
      connectLoop outcome max_retries attempts fuel =
        (false, backoffWaits attempts (max_retries - attempts - 1))
  | fuel + 1, attempts, ham, hfuel => by
      rw [connectLoop]
      rw [if_pos ham]
      rw [hfail attempts ham]
      simp only [Bool.false_eq_true, if_false]
      rcases Nat.lt_or_ge (attempts + 1) max_retries with hlt | hge
      · rw [if_pos hlt]
        rw [connectLoop_all_fail outcome max_retries hfail fuel (attempts + 1) hlt
          (by omega)]
        rw [show max_retries - attempts - 1 = (max_retries - (attempts + 1) - 1) + 1
          by omega, backoffWaits]
      · rw [if_neg (by omega)]
        rw [show max_retries - attempts - 1 = 0 by omega, backoffWaits]
  | 0, _, _, _ => by omega

/-! ## Claims -/

/-- C1, as stated, is false for TERMINATE: on a fresh connection (no HELLO
processed yet, `last_command = none`), a STOP_CMD frame with the expected
nonce 0 is NOT rejected — `_process_command` has no authentication check in
its STOP_CMD branch, so the server answers STOP_OK with nonce 1, advances
both counters, and keeps the connection alive. -/
theorem c1_stop_before_hello_accepted :
    handleFrame serverSecret ConnectionState.init ⟨STOP_CMD, 0, []⟩ =
      (⟨2, 3, none, 0⟩, some ⟨STOP_OK, 1, []⟩, true) := by
  decide

/-- C1 (amended): before any HELLO (`last_command = none`), a DUMP with the
expected nonce is rejected with a protocol error ("DUMP requires HELLO
first"), no response frame is produced, the state is unchanged and the
connection is torn down; a TERMINATE (STOP_CMD) with the expected nonce,
however, is accepted and answered with STOP_OK. -/
theorem c1_dump_before_hello_rejected (secret : List Nat)
    (state : ConnectionState) (frame : Frame)
    (hlast : state.last_command = none)
    (hnonce : frame.nonce = state.expected_client_nonce) :
    (frame.cmd = DUMP → handleFrame secret state frame = (state, none, false)) ∧
    (frame.cmd = STOP_CMD → handleFrame secret state frame =
      ({ state with expected_client_nonce := state.expected_client_nonce + 2,
                    server_nonce := state.server_nonce + 2 },
       some ⟨STOP_OK, state.server_nonce, []⟩, true)) := by
  constructor
  · intro hcmd
    rw [handleFrame, processCommand, if_neg (by simp [hnonce]),
      if_neg (by rw [hcmd]; decide), if_pos hcmd, if_pos (by simp [hlast, HELLO])]
  · intro hcmd
    rw [handleFrame, processCommand, if_neg (by simp [hnonce]),
      if_neg (by rw [hcmd]; decide), if_neg (by rw [hcmd]; decide), if_pos hcmd]

/-- Witness for C1 amended: concrete fresh connection. -/
theorem c1_dump_before_hello_rejected_witness :
    handleFrame serverSecret ConnectionState.init ⟨DUMP, 0, []⟩ =
      (ConnectionState.init, none, false) :=
  (c1_dump_before_hello_rejected serverSecret ConnectionState.init
    ⟨DUMP, 0, []⟩ rfl rfl).1 rfl

/-- C3: on an authenticated connection (`last_command = some HELLO`, which
`_process_command` leaves untouched across DUMPs), a correctly sequenced
DUMP increments `dump_count`, advances both nonce counters by 2, and is
answered DUMP_FAILED when it is the first DUMP since the HELLO
(`dump_count = 0`, reset by the HELLO branch) and DUMP_OK carrying the
configured secret otherwise; the phase stays authenticated
(`last_command` is still HELLO in the resulting state). -/
theorem c3_first_dump_fails_then_succeeds (secret : List Nat)
    (state : ConnectionState) (frame : Frame)
    (hlast : state.last_command = some HELLO)
    (hcmd : frame.cmd = DUMP)
    (hnonce : frame.nonce = state.expected_client_nonce) :
    processCommand secret state frame =
      ({ state with dump_count := state.dump_count + 1,
                    expected_client_nonce := state.expected_client_nonce + 2,
                    server_nonce := state.server_nonce + 2 },
       .ok (if state.dump_count = 0 then ⟨DUMP_FAILED, state.server_nonce, []⟩
            else ⟨DUMP_OK, state.server_nonce, secret⟩)) ∧
    (processCommand secret state frame).1.last_command = some HELLO := by
  have hmain : processCommand secret state frame =
      ({ state with dump_count := state.dump_count + 1,
                    expected_client_nonce := state.expected_client_nonce + 2,
                    server_nonce := state.server_nonce + 2 },
       .ok (if state.dump_count = 0 then ⟨DUMP_FAILED, state.server_nonce, []⟩
            else ⟨DUMP_OK, state.server_nonce, secret⟩)) := by
    rw [processCommand, if_neg (by simp [hnonce]),
      if_neg (by rw [hcmd]; decide), if_pos hcmd, if_neg (by simp [hlast])]
    rcases Nat.eq_zero_or_pos state.dump_count with h0 | h0
    · simp [h0]
    · have hne : state.dump_count + 1 ≠ 1 := by omega
      have hne0 : state.dump_count ≠ 0 := by omega
      simp [hne, hne0]
  refine ⟨hmain, ?_⟩
  rw [hmain]
  exact hlast

/-- Witness for C3: first and second DUMP on a concrete authenticated
state. -/
theorem c3_first_dump_fails_then_succeeds_witness :
    processCommand serverSecret ⟨2, 3, some HELLO, 0⟩ ⟨DUMP, 2, []⟩ =
      (⟨4, 5, some HELLO, 1⟩, .ok ⟨DUMP_FAILED, 3, []⟩) ∧
    processCommand serverSecret ⟨4, 5, some HELLO, 1⟩ ⟨DUMP, 4, []⟩ =
      (⟨6, 7, some HELLO, 2⟩, .ok ⟨DUMP_OK, 5, serverSecret⟩) := by
  constructor
  · have h := (c3_first_dump_fails_then_succeeds serverSecret
      ⟨2, 3, some HELLO, 0⟩ ⟨DUMP, 2, []⟩ rfl rfl rfl).1
    simpa using h
  · have h := (c3_first_dump_fails_then_succeeds serverSecret
      ⟨4, 5, some HELLO, 1⟩ ⟨DUMP, 4, []⟩ rfl rfl rfl).1
    simpa using h

/-- C4: the client sequencer at counter N builds each outbound frame
carrying N (the builders return only a frame, mirroring the Python methods
that read `self.nonce` without assigning it), and `update_nonce` with peer
nonce P raises a nonce-mismatch error leaving the counter unchanged unless
P = N + 1, in which case the counter becomes P + 1 = N + 2. -/
theorem c4_client_sequencer_contract (p : MiniTelProtocol) (P : Nat) :
    p.create_hello_frame = ⟨HELLO, p.nonce, []⟩ ∧
    p.create_dump_frame = ⟨DUMP, p.nonce, []⟩ ∧
    p.create_stop_frame = ⟨STOP_CMD, p.nonce, []⟩ ∧
    (P ≠ p.nonce + 1 → p.update_nonce P = (p, some "Nonce mismatch")) ∧
    (P = p.nonce + 1 → p.update_nonce P = (⟨p.nonce + 2⟩, none)) := by
  refine ⟨rfl, rfl, rfl, ?_, ?_⟩
  · intro hne
    rw [MiniTelProtocol.update_nonce, if_pos hne]
  · intro heq
    rw [MiniTelProtocol.update_nonce, if_neg (by simp [heq]), heq]

/-- Witness for C4 at a concrete counter. -/
theorem c4_client_sequencer_contract_witness :
    MiniTelProtocol.update_nonce ⟨5⟩ 6 = (⟨7⟩, none) ∧
    MiniTelProtocol.update_nonce ⟨5⟩ 9 = (⟨5⟩, some "Nonce mismatch") :=
  ⟨(c4_client_sequencer_contract ⟨5⟩ 6).2.2.2.2 rfl,
   (c4_client_sequencer_contract ⟨5⟩ 9).2.2.2.1 (by decide)⟩

/-- C9: every protocol-error path leaves the mutable state unchanged: a
client `update_nonce` that raises returns the counter as it was, and a
`_process_command` that raises (nonce mismatch, DUMP before HELLO, unknown
opcode) returns the connection state as it was — every raise happens
before any field assignment, which the state threading reproduces in
program order. -/
theorem c9_errors_leave_state_unchanged :
    (∀ (p : MiniTelProtocol) (P : Nat) (q : MiniTelProtocol) (e : String),
       p.update_nonce P = (q, some e) → q = p) ∧
    (∀ (secret : List Nat) (state : ConnectionState) (frame : Frame)
       (s : ConnectionState) (e : String),
       processCommand secret state frame = (s, .error e) → s = state) := by
  constructor
  · intro p P q e h
    rw [MiniTelProtocol.update_nonce] at h
    split at h
    · exact (congrArg Prod.fst h).symm
    · exact absurd h (by simp)
  · intro secret state frame s e h
    rw [processCommand] at h
    split at h
    · exact (congrArg Prod.fst h).symm
    · split at h
      · exact absurd h (by simp)
      · split at h
        · split at h
          · exact (congrArg Prod.fst h).symm
          · exact absurd h (by simp)
        · split at h
          · exact absurd h (by simp)
          · exact (congrArg Prod.fst h).symm

/-- Witness for C9: a mismatched peer nonce and a DUMP before HELLO, both
at concrete inputs. -/
theorem c9_errors_leave_state_unchanged_witness :
    (⟨5⟩ : MiniTelProtocol) = ⟨5⟩ ∧ ConnectionState.init = ConnectionState.init :=
  ⟨c9_errors_leave_state_unchanged.1 ⟨5⟩ 9 ⟨5⟩ "Nonce mismatch" rfl,
   c9_errors_leave_state_unchanged.2 serverSecret ConnectionState.init
     ⟨DUMP, 0, []⟩ ConnectionState.init "DUMP requires HELLO first" rfl⟩

/-- C10: a HELLO carrying the expected nonce is accepted in every phase —
the HELLO branch runs regardless of `last_command` — resetting
`dump_count` to 0, recording HELLO as last command, answering HELLO_ACK
with the current server nonce, and advancing both counters by 2. -/
theorem c10_hello_accepted_in_any_phase (secret : List Nat)
    (state : ConnectionState) (frame : Frame)
    (hcmd : frame.cmd = HELLO)
    (hnonce : frame.nonce = state.expected_client_nonce) :
    processCommand secret state frame =
      ({ expected_client_nonce := state.expected_client_nonce + 2,
         server_nonce := state.server_nonce + 2,
         last_command := some HELLO, dump_count := 0 },
       .ok ⟨HELLO_ACK, state.server_nonce, []⟩) := by
  rw [processCommand, if_neg (by simp [hnonce]), if_pos hcmd]

/-- Witness for C10: a mid-session HELLO on an already-authenticated
state with nonzero dump count. -/
theorem c10_hello_accepted_in_any_phase_witness :
    processCommand serverSecret ⟨4, 5, some HELLO, 2⟩ ⟨HELLO, 4, []⟩ =
      (⟨6, 7, some HELLO, 0⟩, .ok ⟨HELLO_ACK, 5, []⟩) :=
  c10_hello_accepted_in_any_phase serverSecret ⟨4, 5, some HELLO, 2⟩
    ⟨HELLO, 4, []⟩ rfl rfl

/-- C2: for every wire-valid frame (one command byte, 32-bit nonce, byte
payload) whose encoding does not exceed the length limit, decoding the
encoded bytes returns the very same frame (command, nonce and payload all
equal), and the digest embedded in the encoded binary is exactly the
recomputed digest over command ∥ nonce ∥ payload. -/
theorem c2_encode_decode_roundtrip (f : Frame) (h : f.wf)
    (hok : f.encode.isOk = true) :
    f.encode.bind Frame.decode = .ok f ∧
    f.calcHash = f.binary.drop (f.binary.length - 32) := by
  constructor
  · cases he : f.encode with
    | error e =>
        rw [he] at hok
        exact absurd hok (by simp [Except.isOk, Except.toBool])
    | ok out =>
        simpa [Except.bind] using Frame.decode_encode f h out he
  · exact f.calcHash_eq_trailing

/-- Witness for C2: a concrete HELLO frame with payload "test". -/
theorem c2_encode_decode_roundtrip_witness :
    Frame.wf ⟨HELLO, 42, [116, 101, 115, 116]⟩ ∧
    (Frame.encode ⟨HELLO, 42, [116, 101, 115, 116]⟩).bind Frame.decode =
      .ok ⟨HELLO, 42, [116, 101, 115, 116]⟩ :=
  ⟨by decide, (c2_encode_decode_roundtrip ⟨HELLO, 42, [116, 101, 115, 116]⟩
     (by decide) (by decide)).1⟩

/-- C5: the full HELLO → DUMP → DUMP → TERMINATE exchange from a fresh
connection accepts client nonces 0, 2, 4, 6 and answers with server nonces
1, 3, 5, 7 in that order; every accepted command advances
`expected_client_nonce` and `server_nonce` by exactly 2 (so they never
decrease) and responds with the pre-increment server nonce; and any
request whose nonce deviates from `expected_client_nonce` is rejected. -/
theorem c5_nonce_monotonicity :
    (processCommand serverSecret ConnectionState.init ⟨HELLO, 0, []⟩ =
       (⟨2, 3, some HELLO, 0⟩, .ok ⟨HELLO_ACK, 1, []⟩) ∧
     processCommand serverSecret ⟨2, 3, some HELLO, 0⟩ ⟨DUMP, 2, []⟩ =
       (⟨4, 5, some HELLO, 1⟩, .ok ⟨DUMP_FAILED, 3, []⟩) ∧
     processCommand serverSecret ⟨4, 5, some HELLO, 1⟩ ⟨DUMP, 4, []⟩ =
       (⟨6, 7, some HELLO, 2⟩, .ok ⟨DUMP_OK, 5, serverSecret⟩) ∧
     processCommand serverSecret ⟨6, 7, some HELLO, 2⟩ ⟨STOP_CMD, 6, []⟩ =
       (⟨8, 9, some HELLO, 2⟩, .ok ⟨STOP_OK, 7, []⟩)) ∧
    (∀ (secret : List Nat) (state : ConnectionState) (frame : Frame)
       (s : ConnectionState) (r : Frame),
       processCommand secret state frame = (s, .ok r) →
       s.expected_client_nonce = state.expected_client_nonce + 2 ∧
       s.server_nonce = state.server_nonce + 2 ∧
       r.nonce = state.server_nonce) ∧
    (∀ (secret : List Nat) (state : ConnectionState) (frame : Frame),
       frame.nonce ≠ state.expected_client_nonce →
       processCommand secret state frame =
         (state, .error "Invalid nonce sequence")) := by
  refine ⟨⟨rfl, rfl, rfl, rfl⟩, ?_, ?_⟩
  · intro secret state frame s r h
    rw [processCommand] at h
    split at h
    · exact absurd h (by simp)
    · split at h
      · simp only [Prod.mk.injEq, Except.ok.injEq] at h
        obtain ⟨hs, hr⟩ := h
        subst hs
        subst hr
        exact ⟨rfl, rfl, rfl⟩
      · split at h
        · split at h
          · exact absurd h (by simp)
          · simp only [Prod.mk.injEq, Except.ok.injEq] at h
            obtain ⟨hs, hr⟩ := h
            subst hs
            subst hr
            refine ⟨rfl, rfl, ?_⟩
            split <;> rfl
        · split at h
          · simp only [Prod.mk.injEq, Except.ok.injEq] at h
            obtain ⟨hs, hr⟩ := h
            subst hs
            subst hr
            exact ⟨rfl, rfl, rfl⟩
          · exact absurd h (by simp)
  · intro secret state frame hne
    rw [processCommand, if_pos hne]

/-- Witness for C5: the advance-by-two facts at the first exchange and a
rejected deviating nonce, both concrete. -/
theorem c5_nonce_monotonicity_witness :
    ((⟨2, 3, some HELLO, 0⟩ : ConnectionState).expected_client_nonce =
       ConnectionState.init.expected_client_nonce + 2 ∧
     (⟨2, 3, some HELLO, 0⟩ : ConnectionState).server_nonce =
       ConnectionState.init.server_nonce + 2 ∧
     (⟨HELLO_ACK, 1, []⟩ : Frame).nonce = ConnectionState.init.server_nonce) ∧
    processCommand serverSecret ConnectionState.init ⟨HELLO, 7, []⟩ =
      (ConnectionState.init, .error "Invalid nonce sequence") :=
  ⟨c5_nonce_monotonicity.2.1 serverSecret ConnectionState.init ⟨HELLO, 0, []⟩
     ⟨2, 3, some HELLO, 0⟩ ⟨HELLO_ACK, 1, []⟩ rfl,
   c5_nonce_monotonicity.2.2 serverSecret ConnectionState.init ⟨HELLO, 7, []⟩
     (by decide)⟩

/-- C6: for a wire-valid frame whose encoding succeeds, flipping any
single bit (bit `i` of byte `j`) inside the 32-byte digest region of the
encoded binary makes decode fail with the hash-validation (integrity)
error rather than return a frame. -/
theorem c6_digest_bitflip_rejected (f : Frame) (j i : Nat) (h : f.wf)
    (hok : f.encode.isOk = true) (hj : j < 32) (hi : i < 8) :
    Frame.decode (f.tamperedWire j i) = .error "Hash validation failed" := by
  obtain ⟨hc, hn, hp⟩ := h
  have hb64 : (b64encode f.binary).length ≤ 65535 := by
    rw [Frame.encode] at hok
    by_contra hgt
    rw [if_pos (by omega)] at hok
    exact absurd hok (by simp [Except.isOk, Except.toBool])
  have hHlen : (flipBit f.calcHash j i).length = 32 := by
    rw [flipBit_length, f.calcHash_length]
  have hlen : (f.tamperedBinary j i).length = f.binary.length := by
    simp [Frame.tamperedBinary, Frame.binary, hHlen, f.calcHash_length]
  have hb64t : (b64encode (f.tamperedBinary j i)).length ≤ 65535 := by
    rw [b64encode_length, hlen, ← b64encode_length]
    exact hb64
  have hbytes : ∀ b ∈ f.tamperedBinary j i, b < 256 := by
    intro b hb
    simp only [Frame.tamperedBinary, List.mem_cons, List.mem_append] at hb
    rcases hb with hb | hb | hb | hb
    · omega
    · exact packU32_lt _ _ hb
    · exact hp _ hb
    · exact flipBit_lt _ _ _ hi (sha256_lt _) _ hb
  have hlen37 : 37 ≤ (f.tamperedBinary j i).length := by
    rw [hlen, f.binary_length]
    omega
  rw [Frame.tamperedWire, Frame.decode_wire _ hbytes hlen37 hb64t]
  obtain ⟨hparse, htrail⟩ := parseBinary_shape f.cmd f.nonce f.payload
    (flipBit f.calcHash j i) hn hHlen
  rw [show f.tamperedBinary j i =
    f.cmd :: (packU32 f.nonce ++ (f.payload ++ flipBit f.calcHash j i)) from rfl]
  rw [hparse, htrail]
  have hne : (Frame.mk f.cmd f.nonce f.payload).calcHash ≠ flipBit f.calcHash j i := by
    show f.calcHash ≠ flipBit f.calcHash j i
    intro heq
    exact flipBit_ne f.calcHash j i (by rw [f.calcHash_length]; exact hj) heq.symm
  rw [if_pos hne]

/-- Witness for C6: flipping bit 0 of digest byte 0 of a concrete encoded
HELLO frame. -/
theorem c6_digest_bitflip_rejected_witness :
    Frame.decode (Frame.tamperedWire ⟨HELLO, 0, []⟩ 0 0) =
      .error "Hash validation failed" :=
  c6_digest_bitflip_rejected ⟨HELLO, 0, []⟩ 0 0 (by decide) (by decide)
    (by decide) (by decide)

/-- C7: encode fails with the frame-too-large error exactly when the
base64 text of command ∥ nonce ∥ payload ∥ digest exceeds 65535 bytes, in
which case no wire bytes are produced at all; otherwise it returns the
2-byte big-endian length of the base64 text followed by that text. -/
theorem c7_encode_size_check (f : Frame) :
    (f.encode = .error "Frame too large" ↔ 65535 < (b64encode f.binary).length) ∧
    ((b64encode f.binary).length ≤ 65535 →
      f.encode = .ok (packU16 (b64encode f.binary).length ++ b64encode f.binary)) := by
  constructor
  · rw [Frame.encode]
    split
    · rename_i hgt
      exact ⟨fun _ => by omega, fun _ => rfl⟩
    · rename_i hle
      exact ⟨fun hcontra => by simp at hcontra, fun hgt => by omega⟩
  · intro hle
    rw [Frame.encode, if_neg (by omega)]

/-- Witness for C7: a concrete small frame is encoded as length prefix
plus base64 text. -/
theorem c7_encode_size_check_witness :
    Frame.encode ⟨HELLO, 0, []⟩ =
      .ok (packU16 (b64encode (Frame.binary ⟨HELLO, 0, []⟩)).length ++
        b64encode (Frame.binary ⟨HELLO, 0, []⟩)) :=
  (c7_encode_size_check ⟨HELLO, 0, []⟩).2 (by decide)

/-- C8: `connect` retries the transport up to `max_retries` attempts,
sleeping 2^k time units after the k-th failed attempt whenever another
attempt follows; it returns success as soon as an attempt succeeds (having
slept 2^1 … 2^k for the k failures before it), and if every attempt fails
it returns failure to the caller after sleeping 2^1 … 2^(max_retries-1). -/
theorem c8_connect_retry_backoff (outcome : Nat → Bool) (max_retries k : Nat) :
    (k < max_retries → outcome k = true → (∀ j < k, outcome j = false) →
      connect outcome max_retries =
        (true, (List.range k).map (fun j => 2 ^ (j + 1)))) ∧
    ((∀ j < max_retries, outcome j = false) →
      connect outcome max_retries =
        (false, (List.range (max_retries - 1)).map (fun j => 2 ^ (j + 1)))) := by
  constructor
  · intro hk hsucc hfail
    rw [connect, connectLoop_success outcome max_retries k hk hsucc hfail
      max_retries 0 (by omega) (by omega)]
    rw [Nat.sub_zero, backoffWaits_eq_map]
    simp
  · intro hfail
    rcases Nat.eq_zero_or_pos max_retries with h0 | h0
    · subst h0
      rfl
    · rw [connect, connectLoop_all_fail outcome max_retries hfail
        max_retries 0 h0 (by omega)]
      rw [Nat.sub_zero, backoffWaits_eq_map]
      simp

/-- Witness for C8: success on the third attempt after two failures waits
2 then 4; three straight failures return failure after waiting 2 then 4. -/
theorem c8_connect_retry_backoff_witness :
    connect (fun k => k == 2) 5 = (true, [2, 4]) ∧
    connect (fun _ => false) 3 = (false, [2, 4]) := by
  constructor
  · have h := (c8_connect_retry_backoff (fun k => k == 2) 5 2).1
      (by omega) (by decide) (by decide)
    rw [h]
    decide
  · have h := (c8_connect_retry_backoff (fun _ => false) 3 0).2 (by decide)
    rw [h]
    decide

end MiniTel
